import Mathlib

/-!
# Verification of the raysight echolocation simulation core

Shallow embedding of `raysight.py`: 2D vectors are pairs over a linear
ordered field (`ℚ` where the code is pure field arithmetic, `ℝ` where it
uses `sqrt`/trigonometry), pygame rectangles are integer quadruples with
pygame 2's `colliderect` semantics, and fallible Python operations return
`Except PyErr`.  The `Bat`, `Ray`, `Beam` and `Wall` structures and their
methods are translated directly from the source; removal of an entity from
its owner's collection is modelled by `Option` results / filtered lists.
-/

open Real

/-- The Python exceptions the modelled code can raise. -/
inductive PyErr where
  /-- `ZeroDivisionError` (float division by zero). -/
  | zeroDivision : PyErr
  /-- `ValueError` (explicit `raise ValueError(...)`). -/
  | valueError : PyErr
  /-- `NameError` (evaluation of a free variable that is not bound). -/
  | nameError : PyErr
  deriving DecidableEq

/-- Python's built-in `round` on a float: nearest integer, ties to even. -/
def pyround {α : Type} [LinearOrderedField α] [FloorRing α] (x : α) : ℤ :=
  if Int.fract x = 1 / 2 then (if ⌊x⌋ % 2 = 0 then ⌊x⌋ else ⌊x⌋ + 1) else round x

/-- A `pygame.Rect`: integer position and size. -/
structure PyRect where
  x : ℤ
  y : ℤ
  w : ℤ
  h : ℤ
  deriving DecidableEq

/-- `pygame.Rect.colliderect` (pygame 2 `_pg_do_rects_intersect`): strict
overlap of the normalized rectangles, zero-sized rectangles never collide. -/
def rectsCollide (a b : PyRect) : Bool :=
  if a.w = 0 ∨ a.h = 0 ∨ b.w = 0 ∨ b.h = 0 then false
  else
    decide (min a.x (a.x + a.w) < max b.x (b.x + b.w)) &&
    decide (min a.y (a.y + a.h) < max b.y (b.y + b.h)) &&
    decide (max a.x (a.x + a.w) > min b.x (b.x + b.w)) &&
    decide (max a.y (a.y + a.h) > min b.y (b.y + b.h))

section VectorOps

variable {α : Type} [LinearOrderedField α]

/-- `Vector.__mul__` with a scalar argument: componentwise scaling
(also `__rmul__`, which delegates to `__mul__`). -/
def vmuls (v : α × α) (s : α) : α × α := (v.1 * s, v.2 * s)

/-- `Vector.__truediv__` with a scalar argument: componentwise division. -/
def vdiv (v : α × α) (s : α) : α × α := (v.1 / s, v.2 / s)

/-- `Vector.__add__` on two vectors: componentwise addition. -/
def vadd (a b : α × α) : α × α := (a.1 + b.1, a.2 + b.2)

/-- `Vector.__sub__` on two vectors: componentwise difference. -/
def vsub (a b : α × α) : α × α := (a.1 - b.1, a.2 - b.2)

/-- `Vector.__sub__` with a scalar: subtracts the scalar from each component. -/
def vsubs (v : α × α) (s : α) : α × α := (v.1 - s, v.2 - s)

/-- `lengths.index(min(lengths))`: the first index at which a list attains
its minimum (0 on the empty list, which the source never produces). -/
def idxOfMin [DecidableEq α] (l : List α) : ℕ :=
  match l.min? with
  | none => 0
  | some m => l.findIdx (fun a => a = m)

end VectorOps

/-- `Vector.norm`: `sqrt` of the sum of the squared components (2D case). -/
noncomputable def vnorm (v : ℝ × ℝ) : ℝ := Real.sqrt (v.1 ^ 2 + v.2 ^ 2)

/-- `Vector._rotate2D`: apply the 2D rotation matrix for angle `theta`. -/
noncomputable def Vector.rotate2D (v : ℝ × ℝ) (theta : ℝ) : ℝ × ℝ :=
  (Real.cos theta * v.1 - Real.sin theta * v.2,
   Real.sin theta * v.1 + Real.cos theta * v.2)

/-- `Vector.argument` on a vector of non-zero norm: `acos(x/|v|)`, mirrored
to `2π - acos(x/|v|)` when the y component is negative.  (Total function;
the zero-vector failure case is modelled by `Vector.argumentE`.) -/
noncomputable def Vector.argument (v : ℝ × ℝ) : ℝ :=
  if v.2 < 0 then 2 * Real.pi - Real.arccos (v.1 / vnorm v)
  else Real.arccos (v.1 / vnorm v)

/-- `Vector.argument` with its failure case: the division `dot / norm`
raises `ZeroDivisionError` exactly when the norm is `0`. -/
noncomputable def Vector.argumentE (v : ℝ × ℝ) : Except PyErr ℝ :=
  if vnorm v = 0 then .error .zeroDivision else .ok (Vector.argument v)

/-- `Vector.normalize` with its failure case: each component is divided by
the norm, raising `ZeroDivisionError` exactly when the norm is `0`. -/
noncomputable def Vector.normalizeE (v : ℝ × ℝ) : Except PyErr (ℝ × ℝ) :=
  if vnorm v = 0 then .error .zeroDivision
  else .ok (v.1 / vnorm v, v.2 / vnorm v)

/-- Python's float `%` for a positive modulus: `x - y * floor (x / y)`. -/
noncomputable def pymod (x y : ℝ) : ℝ := x - y * ⌊x / y⌋

/-- `Vector.angle_to`: `(self.argument() - other.argument()) % (2 * pi)`. -/
noncomputable def Vector.angle_to (v other : ℝ × ℝ) : ℝ :=
  pymod (Vector.argument v - Vector.argument other) (2 * Real.pi)

/-! ## Configuration constants (set once in `main`) -/

/-- `RAY_STRENGTH = 200`. -/
def RAY_STRENGTH : ℕ := 200

/-- `RAY_DECAY = 1`. -/
def RAY_DECAY : ℕ := 1

/-- `WALL_DECAY = 10`. -/
def WALL_DECAY : ℕ := 10

/-- `BEAM_DECAY = 2`. -/
def BEAM_DECAY : ℕ := 2

/-- `RAY_SPEED = 8`. -/
def RAY_SPEED : ℕ := 8

/-- `RAYS_PER_EMIT = 32`. -/
def RAYS_PER_EMIT : ℕ := 32

/-- `BAT_RADIUS = 10`. -/
def BAT_RADIUS : ℤ := 10

/-- `RAY_RADIUS = 4`. -/
def RAY_RADIUS : ℤ := 4

/-- `BEAM_WIDTH = 2`. -/
def BEAM_WIDTH : ℕ := 2

/-- `DEFAULT_SPEED = 5`. -/
def DEFAULT_SPEED : ℕ := 5

/-- `EMISSION_ANGLE = 5 * math.pi / 4`. -/
noncomputable def EMISSION_ANGLE : ℝ := 5 * Real.pi / 4

/-! ## Entities -/

/-- A `Wall`: axis-aligned rectangle, scalar interest, agent-blocking flag. -/
structure Wall (α : Type) where
  rect : PyRect
  interest : α
  collides_bat : Bool
  deriving DecidableEq

/-- A `Ray` (pulse).  The `parent` back-reference is left implicit: removal
from the parent's collection is modelled by `Option` results. -/
structure Ray (α : Type) where
  pos : α × α
  facing : α × α
  collided : Bool
  exited_bat : Bool
  strength : α
  interest : α
  radius : ℤ
  deriving DecidableEq

/-- A `Beam` (echo).  `parent` is again implicit. -/
structure Beam (α : Type) where
  start : α × α
  rel : α × α
  strength : α
  interest : α
  width : ℕ
  deriving DecidableEq

/-- A `Bat` (agent).  `rays` is kept outside the structure where a method
only consumes a ray list, mirroring how `test_rays` receives the list. -/
structure Bat (α : Type) where
  pos : α × α
  vel : α × α
  facing : α × α
  ang_vel : α
  friction : α
  beams : List (Beam α)
  radius : ℤ
  deriving DecidableEq

section Entities

variable {α : Type} [LinearOrderedField α] [FloorRing α]

/-- `Bat.get_rect`: square of side `2 * radius` whose top-left corner is the
rounded `pos - radius`. -/
def Bat.get_rect (b : Bat α) : PyRect :=
  ⟨pyround (b.pos.1 - (b.radius : α)), pyround (b.pos.2 - (b.radius : α)),
   2 * b.radius, 2 * b.radius⟩

/-- `Ray.get_rect`: square of side `2 * radius` around the rounded position. -/
def Ray.get_rect (r : Ray α) : PyRect :=
  ⟨pyround (r.pos.1 - (r.radius : α)), pyround (r.pos.2 - (r.radius : α)),
   2 * r.radius, 2 * r.radius⟩

/-- `rect.collidelist(walls)` followed by `walls[collide_index]`: the first
wall in list order whose rectangle collides with `rect` (`none` for the
`-1` no-collision result). -/
def collidelist (rect : PyRect) (walls : List (Wall α)) : Option (Wall α) :=
  walls.find? (fun w => rectsCollide rect w.rect)

/-- `Bat.test_collision`: find the first wall (in list order, regardless of
its flag) colliding with the bat's rectangle; if it exists and has
`collides_bat` set, undo the position step, compute the absolute distances
to the wall's four edges (left, right, top, bottom), and overwrite the
velocity component perpendicular to the closest edge with `±abs`, the sign
`(-1, 1)[close_edge % 2]` pointing away from the wall. -/
def Bat.test_collision (walls : List (Wall α)) (b : Bat α) : Bat α :=
  match collidelist (Bat.get_rect b) walls with
  | none => b
  | some w =>
    if w.collides_bat then
      let pos := vsub b.pos (vdiv b.vel 60)
      let lengths : List α :=
        [|pos.1 - (w.rect.x : α)|, |pos.1 - ((w.rect.x + w.rect.w : ℤ) : α)|,
         |pos.2 - (w.rect.y : α)|, |pos.2 - ((w.rect.y + w.rect.h : ℤ) : α)|]
      let close_edge := idxOfMin lengths
      let positivity : α := if close_edge % 2 = 0 then -1 else 1
      let vel :=
        if close_edge ≤ 1 then (positivity * |b.vel.1|, b.vel.2)
        else (b.vel.1, positivity * |b.vel.2|)
      { b with pos := pos, vel := vel }
    else b

/-- `Ray.test_collision`: against the first colliding wall (any wall,
regardless of `collides_bat`), set `collided`, subtract `WALL_DECAY` from
strength, blend interest, step half a movement increment backwards, and
reflect the facing component perpendicular to the closest of the four
edges, sign pointing away from the wall. -/
def Ray.test_collision (walls : List (Wall α)) (r : Ray α) : Ray α :=
  match collidelist (Ray.get_rect r) walls with
  | none => r
  | some w =>
    let strength := r.strength - (WALL_DECAY : α)
    let interest := (r.interest + w.interest) / 2
    let pos := vsub r.pos (vdiv (vmuls r.facing (RAY_SPEED : α)) 2)
    let lengths : List α :=
      [|pos.1 - (w.rect.x : α)|, |pos.1 - ((w.rect.x + w.rect.w : ℤ) : α)|,
       |pos.2 - (w.rect.y : α)|, |pos.2 - ((w.rect.y + w.rect.h : ℤ) : α)|]
    let close_edge := idxOfMin lengths
    let positivity : α := if close_edge % 2 = 0 then -1 else 1
    let facing :=
      if close_edge ≤ 1 then (positivity * |r.facing.1|, r.facing.2)
      else (r.facing.1, positivity * |r.facing.2|)
    { r with collided := true, strength := strength, interest := interest,
             pos := pos, facing := facing }

/-- `Ray.update`: subtract `RAY_DECAY` from strength, run the collision
test, then either detach from the parent's ray list (`none`) when strength
is `≤ 0`, or advance the position by `facing * RAY_SPEED`. -/
def Ray.update (walls : List (Wall α)) (r : Ray α) : Option (Ray α) :=
  let r1 : Ray α := { r with strength := r.strength - (RAY_DECAY : α) }
  let r2 := Ray.test_collision walls r1
  if r2.strength ≤ 0 then none
  else some { r2 with pos := vadd r2.pos (vmuls r2.facing (RAY_SPEED : α)) }

/-- `n` consecutive ticks of `Ray.update`; `none` once the ray has been
removed from its parent's collection. -/
def iterateRay (walls : List (Wall α)) : ℕ → Ray α → Option (Ray α)
  | 0, r => some r
  | n + 1, r => (Ray.update walls r).bind (iterateRay walls n)

/-- `Beam.update`: subtract `BEAM_DECAY` from strength and detach
(`none`) when the result is `≤ 0`. -/
def Beam.update (bm : Beam α) : Option (Beam α) :=
  let bm1 : Beam α := { bm with strength := bm.strength - (BEAM_DECAY : α) }
  if bm1.strength ≤ 0 then none else some bm1

/-- `Bat.get_average_beam`: fold over the beam list accumulating
`beam.strength / RAY_STRENGTH * beam.rel * beam.interest` (scalar scaling
on both sides of the vector), starting from the zero vector. -/
def Bat.get_average_beam (b : Bat α) : α × α :=
  b.beams.foldl
    (fun acc bm => vadd acc (vmuls (vmuls bm.rel (bm.strength / (RAY_STRENGTH : α))) bm.interest))
    (0, 0)

end Entities

/-! ## Emission, pulse-return testing, steering -/

/-- The angle handed to the `i`-th `Ray` constructed by `Bat.emit`:
`facing.argument() - EMISSION_ANGLE / 2 + EMISSION_ANGLE / RAYS_PER_EMIT * i`. -/
noncomputable def emitAngle (arg : ℝ) (i : ℕ) : ℝ :=
  arg - EMISSION_ANGLE / 2 + EMISSION_ANGLE / (RAYS_PER_EMIT : ℝ) * i

/-- `Bat.emit`: the list of `RAYS_PER_EMIT` rays appended to `self.rays`,
each starting at the bat's position with facing `Vector(1, 0).rotate(angle)`
and full strength. -/
noncomputable def Bat.emit (b : Bat ℝ) : List (Ray ℝ) :=
  (List.range RAYS_PER_EMIT).map fun i =>
    { pos := b.pos,
      facing := Vector.rotate2D (1, 0) (emitAngle (Vector.argument b.facing) i),
      collided := false, exited_bat := false,
      strength := (RAY_STRENGTH : ℝ), interest := 0, radius := RAY_RADIUS }

open Classical in
/-- One iteration of the loop in `Bat.test_rays`: the beam this ray appends
to `self.beams` (if any) and the ray as it stays in the scanned collection
(`none` once appended to `removed_rays`).  A returning ray (overlap with
the bat's rectangle, `collided` and `exited_bat` both set) is removed
whether or not the negated facing was the zero vector; the beam is only
created when it is not. -/
noncomputable def Bat.processRay (b : Bat ℝ) (r : Ray ℝ) : Option (Beam ℝ) × Option (Ray ℝ) :=
  if rectsCollide (Bat.get_rect b) (Ray.get_rect r) then
    if r.collided && r.exited_bat then
      (if (vmuls r.facing (-1)).1 ≠ 0 ∨ (vmuls r.facing (-1)).2 ≠ 0 then
         some { start := b.pos,
                rel := ((vmuls r.facing (-1)).1 / vnorm (vmuls r.facing (-1)),
                        (vmuls r.facing (-1)).2 / vnorm (vmuls r.facing (-1))),
                strength := r.strength, interest := r.interest, width := BEAM_WIDTH }
       else none,
       none)
    else (none, some r)
  else if r.exited_bat = false then (none, some { r with exited_bat := true })
  else (none, some r)

/-- `Bat.test_rays`: the bat with the newly created beams appended to its
beam collection, and the rays surviving in the scanned collection. -/
noncomputable def Bat.test_rays (b : Bat ℝ) (rays : List (Ray ℝ)) : Bat ℝ × List (Ray ℝ) :=
  ({ b with beams := b.beams ++ rays.filterMap fun r => (Bat.processRay b r).1 },
   rays.filterMap fun r => (Bat.processRay b r).2)

open Classical in
/-- The per-agent steering policy of the main loop (the auto-controlled
branch): accelerate forward by `20 * |average_beam| + DEFAULT_SPEED`, then
either steer towards the average beam (non-zero case, Python truthiness of
the two components) or add `π` to the angular velocity. -/
noncomputable def steer (b : Bat ℝ) (average_beam : ℝ × ℝ) : Bat ℝ :=
  let b1 := { b with
    vel := vadd b.vel (vmuls b.facing (20 * vnorm average_beam + (DEFAULT_SPEED : ℝ))) }
  if average_beam.1 ≠ 0 ∨ average_beam.2 ≠ 0 then
    let angle := Vector.angle_to b1.facing average_beam
    { b1 with ang_vel := b1.ang_vel -
        (if angle > Real.pi then angle - Real.pi * 2 else angle) }
  else
    { b1 with ang_vel := b1.ang_vel + Real.pi }

/-- The matrix branch of `Vector.rotate` (N-dimensional vectors as lists).
The source's dimension check `all(len(row) == len(v) for row in matrix)`
references the undefined name `v`, so evaluating it on any non-empty
matrix raises `NameError` before the check can complete.  On an empty
matrix `all(...)` is vacuously true and the `len(matrix) == len(self)`
comparison runs: for every constructible vector (dimension at least 1) it
fails and `ValueError` is raised; in the unreachable 0-dimensional case
`matrix_mult([])` would return `Vector()`, the default `[0, 0]`. -/
def Vector.rotateByMatrix (self : List ℚ) (matrix : List (List ℚ)) : Except PyErr (List ℚ) :=
  match matrix with
  | [] => if self.length = 0 then .ok [0, 0] else .error .valueError
  | _ :: _ => .error .nameError

/-! ## Definitions taken from the specification's words (for refinement
claims, to be compared with the translations from the source) -/

/-- Modelled from the spec: the collision response of an agent against a
blocking obstacle — undo the last position step, compute the absolute
distances from the (restored) position to the obstacle's four edges
(left, right, top, bottom), pick the minimum as the closest edge, and
replace the velocity component perpendicular to that edge by its absolute
value signed away from the obstacle: negative for left/top, positive for
right/bottom. -/
def specCollisionResponse (w : Wall ℚ) (b : Bat ℚ) : Bat ℚ :=
  let p := vsub b.pos (vdiv b.vel 60)
  let dLeft := |p.1 - (w.rect.x : ℚ)|
  let dRight := |p.1 - ((w.rect.x + w.rect.w : ℤ) : ℚ)|
  let dTop := |p.2 - (w.rect.y : ℚ)|
  let dBottom := |p.2 - ((w.rect.y + w.rect.h : ℤ) : ℚ)|
  let e := idxOfMin [dLeft, dRight, dTop, dBottom]
  { b with
    pos := p,
    vel :=
      if e = 0 then (-|b.vel.1|, b.vel.2)
      else if e = 1 then (|b.vel.1|, b.vel.2)
      else if e = 2 then (b.vel.1, -|b.vel.2|)
      else (b.vel.1, |b.vel.2|) }

open Classical in
/-- Modelled from the spec: the signed angle from `facing` to the
aggregate echo, reduced to the shortest turn by subtracting `2π` when the
angle exceeds `π`. -/
noncomputable def shortestTurnAngle (facing target : ℝ × ℝ) : ℝ :=
  let a := Vector.angle_to facing target
  if a > Real.pi then a - 2 * Real.pi else a

/-! ## Concrete fixtures used by witnesses and counterexamples -/

/-- A bat at `(30, 30)` moving straight down with speed 60. -/
def batC1 : Bat ℚ := ⟨(30, 30), (0, 60), (1, 0), 0, 11 / 10, [], BAT_RADIUS⟩

/-- A non-blocking (`collides_bat = false`) wall overlapping `batC1`. -/
def wallGlass : Wall ℚ := ⟨⟨20, 20, 20, 20⟩, 1 / 5, false⟩

/-- A blocking (`collides_bat = true`) wall overlapping `batC1`. -/
def wallSolid : Wall ℚ := ⟨⟨25, 25, 20, 20⟩, -(1 / 2), true⟩

/-- A wall whose bottom edge sits at `y = 20`. -/
def wallC8 : Wall ℚ := ⟨⟨0, 0, 100, 20⟩, -(1 / 2), false⟩

/-- A ray just below `wallC8`, travelling straight up. -/
def rayC8 : Ray ℚ := ⟨(50, 23), (0, -1), false, true, 200, 0, RAY_RADIUS⟩

/-- A fresh full-strength ray travelling right with no wall anywhere. -/
def rayFree : Ray ℚ := ⟨(100, 100), (1, 0), false, false, 200, 0, RAY_RADIUS⟩

/-- A bat at `(100, 100)` facing along the positive x axis. -/
noncomputable def batR : Bat ℝ := ⟨(100, 100), (0, 0), (1, 0), 0, 11 / 10, [], BAT_RADIUS⟩

/-- A returning ray sitting on `batR` whose facing is the zero vector. -/
noncomputable def rayZeroFacing : Ray ℝ := ⟨(100, 100), (0, 0), true, true, 50, 0, RAY_RADIUS⟩

/-! ## Helper lemmas -/

theorem pyround_intCast {α : Type} [LinearOrderedField α] [FloorRing α] (n : ℤ) :
    pyround ((n : α)) = n := by
  unfold pyround
  rw [Int.fract_intCast]
  norm_num

theorem vadd_def {α : Type} [LinearOrderedField α] (a b : α × α) : vadd a b = a + b := rfl

theorem foldl_vadd_sum {α : Type} [LinearOrderedField α] {β : Type} (g : β → α × α) :
    ∀ (l : List β) (init : α × α),
      l.foldl (fun acc bm => vadd acc (g bm)) init = init + (l.map g).sum
  | [], init => by simp
  | b :: l, init => by
    rw [List.foldl_cons, foldl_vadd_sum g l, vadd_def, add_assoc, List.map_cons, List.sum_cons]

theorem idxOfMin_lt_length {α : Type} [LinearOrderedField α] {l : List α} (h : l ≠ []) :
    idxOfMin l < l.length := by
  unfold idxOfMin
  cases hm : l.min? with
  | none => exact absurd (List.min?_eq_none_iff.mp hm) h
  | some m =>
    apply List.findIdx_lt_length_of_exists
    exact ⟨m, List.min?_mem (fun a b => min_choice a b) hm, by simp⟩

/-! ## Claims -/

/-- C9: for every 2D vector `v` and angle `θ`, rotating `v` by `θ` with
`Vector._rotate2D` and then by `-θ` yields `v` exactly (real arithmetic). -/
theorem rotate_unrotate_identity (v : ℝ × ℝ) (theta : ℝ) :
    Vector.rotate2D (Vector.rotate2D v theta) (-theta) = v := by
  obtain ⟨x, y⟩ := v
  have h := Real.sin_sq_add_cos_sq theta
  simp only [Vector.rotate2D, Real.cos_neg, Real.sin_neg, Prod.mk.injEq]
  constructor
  · linear_combination x * h
  · linear_combination y * h

/-- C5 (code bug): the matrix `[[1,0],[0,1]]` is square and matches the
dimension of the vector `[1,2]` (conjuncts two and three evaluate the
shapes), yet `Vector.rotate` on it raises `NameError` — its dimension
check references the undefined name `v` — instead of returning the
matrix-vector product as the claim (and the method's own docstring)
require.  A dimension-mismatch `ValueError` is never reached on any
non-empty matrix. -/
theorem rotate_matrix_name_error :
    Vector.rotateByMatrix [1, 2] [[1, 0], [0, 1]] = .error .nameError
  ∧ ([[1, 0], [0, 1]] : List (List ℚ)).length = ([1, 2] : List ℚ).length
  ∧ ([[1, 0], [0, 1]] : List (List ℚ)).map List.length
      = [([1, 2] : List ℚ).length, ([1, 2] : List ℚ).length] :=
  ⟨rfl, rfl, rfl⟩

/-- C7: an agent's aggregate echo is the sum over its beams of
`(strength / RAY_STRENGTH) * direction * interest`, and it is the zero
vector when the beam collection is empty. -/
theorem aggregate_echo_sum (b : Bat ℚ) :
    Bat.get_average_beam b
      = (b.beams.map fun bm => (bm.strength / (RAY_STRENGTH : ℚ) * bm.interest) • bm.rel).sum
  ∧ (b.beams = [] → Bat.get_average_beam b = 0) := by
  have key : Bat.get_average_beam b
      = (b.beams.map fun bm => (bm.strength / (RAY_STRENGTH : ℚ) * bm.interest) • bm.rel).sum := by
    have hfun : ∀ bm : Beam ℚ,
        vmuls (vmuls bm.rel (bm.strength / (RAY_STRENGTH : ℚ))) bm.interest
          = (bm.strength / (RAY_STRENGTH : ℚ) * bm.interest) • bm.rel := fun bm => by
      apply Prod.ext <;> simp [vmuls, smul_eq_mul] <;> ring
    unfold Bat.get_average_beam
    rw [show ((0 : ℚ), (0 : ℚ)) = (0 : ℚ × ℚ) from rfl, foldl_vadd_sum, zero_add]
    simp only [hfun]
  exact ⟨key, fun h => by rw [key, h]; rfl⟩

/-- C7 witness: the empty-collection case evaluated on a concrete bat. -/
theorem aggregate_echo_sum_witness :
    batC1.beams = [] ∧ Bat.get_average_beam batC1 = 0 :=
  ⟨rfl, (aggregate_echo_sum batC1).2 rfl⟩

theorem ray_test_collision_strength_le (walls : List (Wall ℚ)) (r : Ray ℚ) :
    (Ray.test_collision walls r).strength ≤ r.strength := by
  unfold Ray.test_collision
  cases h : collidelist (Ray.get_rect r) walls with
  | none => simp
  | some w =>
    simp only []
    have : (0 : ℚ) ≤ (WALL_DECAY : ℚ) := by positivity
    simp [sub_le_self _ this]

theorem rayFree_iter :
    ∀ (k : ℕ) (x s : ℚ), (k : ℚ) < s →
      iterateRay [] k ⟨(x, 100), (1, 0), false, false, s, 0, RAY_RADIUS⟩
        = some ⟨(x + 8 * k, 100), (1, 0), false, false, s - k, 0, RAY_RADIUS⟩
  | 0, x, s, _ => by simp [iterateRay]
  | k + 1, x, s, h => by
    have h8 : ((RAY_SPEED : ℕ) : ℚ) = 8 := by norm_num [RAY_SPEED]
    have h1 : ((RAY_DECAY : ℕ) : ℚ) = 1 := by norm_num [RAY_DECAY]
    have hk : (k : ℚ) < s - 1 := by push_cast at h ⊢; linarith
    have hstep : Ray.update ([] : List (Wall ℚ)) ⟨(x, 100), (1, 0), false, false, s, 0, RAY_RADIUS⟩
        = some ⟨(x + 8, 100), (1, 0), false, false, s - 1, 0, RAY_RADIUS⟩ := by
      unfold Ray.update Ray.test_collision collidelist
      have hpos : ¬ (s - ((RAY_DECAY : ℕ) : ℚ) ≤ 0) := by rw [h1]; push_cast at h; linarith
      simp only [List.find?_nil, hpos, if_false]
      simp [vadd, vmuls, h1, h8]
    rw [iterateRay, hstep, Option.some_bind, rayFree_iter k (x + 8) (s - 1) hk]
    simp only [Option.some.injEq, Ray.mk.injEq, Prod.mk.injEq, eq_self_iff_true,
      and_true, true_and]
    constructor <;> push_cast <;> ring

theorem iterateRay_add (walls : List (Wall ℚ)) :
    ∀ (m n : ℕ) (r : Ray ℚ),
      iterateRay walls (m + n) r = (iterateRay walls m r).bind (iterateRay walls n)
  | 0, n, r => by simp [iterateRay, Nat.zero_add]
  | m + 1, n, r => by
    have hmn : m + 1 + n = (m + n) + 1 := by omega
    rw [hmn]
    simp only [iterateRay]
    cases Ray.update walls r with
    | none => simp
    | some r2 => simp [iterateRay_add walls m n r2]

/-- C4: a pulse's strength strictly decreases on every tick it survives;
`Ray.update` removes the pulse (returns `none`, skipping the position
advance) exactly when the strength after decay and collision handling is
`≤ 0`; and the scenario pulse of strength 200 with per-tick decay 1 and no
wall anywhere survives ticks 0..199 and is removed on tick 200 exactly. -/
theorem pulse_decay_removal :
    (∀ (walls : List (Wall ℚ)) (r r2 : Ray ℚ),
      Ray.update walls r = some r2 → r2.strength < r.strength)
  ∧ (∀ (walls : List (Wall ℚ)) (r : Ray ℚ),
      Ray.update walls r = none
        ↔ (Ray.test_collision walls
            { r with strength := r.strength - (RAY_DECAY : ℚ) }).strength ≤ 0)
  ∧ (∀ k, k < 200 → iterateRay [] k rayFree ≠ none)
  ∧ iterateRay [] 200 rayFree = none := by
  refine ⟨?_, ?_, ?_, ?_⟩
  · intro walls r r2 h
    have hle := ray_test_collision_strength_le walls
      { r with strength := r.strength - (RAY_DECAY : ℚ) }
    simp only [Ray.update] at h
    by_cases hc : (Ray.test_collision walls
        { r with strength := r.strength - (RAY_DECAY : ℚ) }).strength ≤ 0
    · simp [hc] at h
    · simp only [hc, if_false, Option.some.injEq] at h
      have hs : r2.strength = (Ray.test_collision walls
          { r with strength := r.strength - (RAY_DECAY : ℚ) }).strength := by
        rw [← h]
      rw [hs]
      have hdec : (0 : ℚ) < (RAY_DECAY : ℚ) := by norm_num [RAY_DECAY]
      calc (Ray.test_collision walls
            { r with strength := r.strength - (RAY_DECAY : ℚ) }).strength
          ≤ r.strength - (RAY_DECAY : ℚ) := hle
        _ < r.strength := by linarith
  · intro walls r
    simp only [Ray.update]
    split_ifs with hc <;> simp [hc]
  · intro k hk
    have : iterateRay [] k rayFree
        = some ⟨(100 + 8 * k, 100), (1, 0), false, false, 200 - k, 0, RAY_RADIUS⟩ :=
      rayFree_iter k 100 200 (by exact_mod_cast hk)
    rw [this]
    simp
  · have h199 : iterateRay [] 199 rayFree
        = some ⟨(100 + 8 * (199 : ℕ), 100), (1, 0), false, false, 200 - (199 : ℕ), 0, RAY_RADIUS⟩ :=
      rayFree_iter 199 100 200 (by norm_num)
    rw [show (200 : ℕ) = 199 + 1 by rfl, iterateRay_add, h199, Option.some_bind]
    simp only [iterateRay]
    have hnone : Ray.update ([] : List (Wall ℚ))
        ⟨(100 + 8 * (199 : ℕ), 100), (1, 0), false, false, 200 - (199 : ℕ), 0, RAY_RADIUS⟩
          = none := by
      simp only [Ray.update, Ray.test_collision, collidelist, List.find?_nil]
      norm_num [RAY_DECAY]
    rw [hnone]
    rfl

/-- C4 witness: one wall-free tick of the scenario pulse, evaluated
concretely, strictly decreases its strength (200 to 199). -/
theorem pulse_decay_removal_witness :
    Ray.update [] rayFree = some ⟨(108, 100), (1, 0), false, false, 199, 0, RAY_RADIUS⟩
  ∧ ((⟨(108, 100), (1, 0), false, false, 199, 0, RAY_RADIUS⟩ : Ray ℚ)).strength
      < rayFree.strength := by
  have h : Ray.update [] rayFree
      = some ⟨(108, 100), (1, 0), false, false, 199, 0, RAY_RADIUS⟩ := by
    simp only [Ray.update, Ray.test_collision, collidelist, List.find?_nil, rayFree]
    norm_num [vadd, vmuls, RAY_DECAY, RAY_SPEED]
  exact ⟨h, pulse_decay_removal.1 [] rayFree _ h⟩

theorem reflect_branch_eq (v1 v2 : ℚ) (e : ℕ) (he : e < 4) :
    (if e ≤ 1 then ((if e % 2 = 0 then (-1 : ℚ) else 1) * |v1|, v2)
     else (v1, (if e % 2 = 0 then (-1 : ℚ) else 1) * |v2|))
  = (if e = 0 then (-|v1|, v2) else if e = 1 then (|v1|, v2)
     else if e = 2 then (v1, -|v2|) else (v1, |v2|)) := by
  interval_cases e <;> norm_num

/-- C1 (counterexample): an obstacle with `blocksAgents = false` changes
the outcome of the agent's collision resolution.  `wallGlass` does not
block agents, `wallSolid` does and collides with the bat's box, yet with
`wallGlass` first in the list the update leaves the agent unchanged, while
with `wallSolid` alone the step is undone and the velocity reflected. -/
theorem nonblocking_wall_masks_blocking_cex :
    wallGlass.collides_bat = false
  ∧ wallSolid.collides_bat = true
  ∧ rectsCollide (Bat.get_rect batC1) wallSolid.rect = true
  ∧ Bat.test_collision [wallGlass, wallSolid] batC1 = batC1
  ∧ Bat.test_collision [wallSolid] batC1 ≠ batC1 := by
  have hres : Bat.test_collision [wallSolid] batC1
      = { batC1 with pos := (30, 29), vel := (0, -60) } := by
    norm_num [Bat.test_collision, collidelist, List.find?, rectsCollide, Bat.get_rect,
      batC1, wallSolid, BAT_RADIUS, pyround, Int.fract, round_eq, vsub, vdiv, idxOfMin, List.min?,
      List.findIdx, List.findIdx.go, min_def, abs]
  refine ⟨rfl, rfl, ?_, ?_, ?_⟩
  · norm_num [rectsCollide, Bat.get_rect, batC1, wallSolid, BAT_RADIUS, pyround, Int.fract, round_eq]
  · norm_num [Bat.test_collision, collidelist, List.find?, rectsCollide, Bat.get_rect,
      batC1, wallGlass, wallSolid, BAT_RADIUS, pyround, Int.fract, round_eq]
  · rw [hres]
    norm_num [batC1]

/-- C1 (amended): the agent's box is tested against the obstacle list
without filtering on `blocksAgents`; the update responds only to the first
colliding obstacle in list order: if that obstacle blocks agents, the
position step is undone and the perpendicular velocity component is
reflected away from the closest edge (`specCollisionResponse`); if it does
not block agents nothing happens — even when a later obstacle both
collides and blocks — and likewise when no obstacle collides. -/
theorem agent_collision_first_wall_flag (walls : List (Wall ℚ)) (b : Bat ℚ) :
    (collidelist (Bat.get_rect b) walls = none → Bat.test_collision walls b = b)
  ∧ (∀ w, collidelist (Bat.get_rect b) walls = some w → w.collides_bat = false →
      Bat.test_collision walls b = b)
  ∧ (∀ w, collidelist (Bat.get_rect b) walls = some w → w.collides_bat = true →
      Bat.test_collision walls b = specCollisionResponse w b) := by
  refine ⟨?_, ?_, ?_⟩
  · intro h
    simp [Bat.test_collision, h]
  · intro w hw hflag
    simp [Bat.test_collision, hw, hflag]
  · intro w hw hflag
    have hlen : idxOfMin
        [|(vsub b.pos (vdiv b.vel 60)).1 - (w.rect.x : ℚ)|,
         |(vsub b.pos (vdiv b.vel 60)).1 - ((w.rect.x + w.rect.w : ℤ) : ℚ)|,
         |(vsub b.pos (vdiv b.vel 60)).2 - (w.rect.y : ℚ)|,
         |(vsub b.pos (vdiv b.vel 60)).2 - ((w.rect.y + w.rect.h : ℤ) : ℚ)|] < 4 := by
      have h4 := idxOfMin_lt_length (α := ℚ)
        (l := [|(vsub b.pos (vdiv b.vel 60)).1 - (w.rect.x : ℚ)|,
               |(vsub b.pos (vdiv b.vel 60)).1 - ((w.rect.x + w.rect.w : ℤ) : ℚ)|,
               |(vsub b.pos (vdiv b.vel 60)).2 - (w.rect.y : ℚ)|,
               |(vsub b.pos (vdiv b.vel 60)).2 - ((w.rect.y + w.rect.h : ℤ) : ℚ)|])
        (by simp)
      simpa using h4
    simp only [Bat.test_collision, specCollisionResponse, hw, hflag, if_true]
    rw [reflect_branch_eq b.vel.1 b.vel.2 _ hlen]

/-- C1 witness: the blocking branch of the amended theorem evaluated on
the concrete bat and wall: the step is undone and the downward velocity
reflected off the wall's top edge. -/
theorem agent_collision_first_wall_flag_witness :
    collidelist (Bat.get_rect batC1) [wallSolid] = some wallSolid
  ∧ wallSolid.collides_bat = true
  ∧ Bat.test_collision [wallSolid] batC1 = specCollisionResponse wallSolid batC1 := by
  have h1 : collidelist (Bat.get_rect batC1) [wallSolid] = some wallSolid := by
    norm_num [collidelist, List.find?, rectsCollide, Bat.get_rect, batC1, wallSolid,
      BAT_RADIUS, pyround, Int.fract, round_eq]
  exact ⟨h1, rfl, (agent_collision_first_wall_flag [wallSolid] batC1).2.2 wallSolid h1 rfl⟩

/-- C8 (counterexample): the concrete pulse `rayC8` collides with `wallC8`
and the four-edge absolute-distance test picks the obstacle's bottom edge
(distances 50, 50, 27, 7), yet the facing's Y-component on the next tick
is `+1` — positive, not negative as the claim states. -/
theorem bottom_edge_reflection_cex :
    idxOfMin [(50 : ℚ), 50, 27, 7] = 3
  ∧ (Ray.test_collision [wallC8] rayC8).facing = (0, 1)
  ∧ ¬ ((Ray.test_collision [wallC8] rayC8).facing.2 < 0) := by
  have hres : Ray.test_collision [wallC8] rayC8
      = { rayC8 with
          pos := (50, 27), facing := (0, 1), collided := true,
          strength := 190, interest := -(1 / 4) } := by
    norm_num [Ray.test_collision, collidelist, List.find?, rectsCollide, Ray.get_rect,
      rayC8, wallC8, RAY_RADIUS, RAY_SPEED, WALL_DECAY, pyround, Int.fract, round_eq,
      vsub, vdiv, vmuls, idxOfMin, List.min?, List.findIdx, List.findIdx.go, min_def, abs]
  refine ⟨?_, ?_, ?_⟩
  · norm_num [idxOfMin, List.min?, List.findIdx, List.findIdx.go, min_def]
  · rw [hres]
  · rw [hres]
    norm_num

/-- C8 (amended): a pulse colliding with an obstacle whose closest edge by
the four-edge test is the bottom edge has its facing's Y-component
replaced by `+|y|` — forced non-negative (pointing away from the bottom
edge, i.e. downward in screen coordinates), not negative; the negative
sign belongs to the top edge. -/
theorem bottom_edge_reflection_sign (walls : List (Wall ℚ)) (r : Ray ℚ) (w : Wall ℚ)
    (hw : collidelist (Ray.get_rect r) walls = some w)
    (hbottom : idxOfMin
      [|(vsub r.pos (vdiv (vmuls r.facing ((RAY_SPEED : ℕ) : ℚ)) 2)).1 - (w.rect.x : ℚ)|,
       |(vsub r.pos (vdiv (vmuls r.facing ((RAY_SPEED : ℕ) : ℚ)) 2)).1
          - ((w.rect.x + w.rect.w : ℤ) : ℚ)|,
       |(vsub r.pos (vdiv (vmuls r.facing ((RAY_SPEED : ℕ) : ℚ)) 2)).2 - (w.rect.y : ℚ)|,
       |(vsub r.pos (vdiv (vmuls r.facing ((RAY_SPEED : ℕ) : ℚ)) 2)).2
          - ((w.rect.y + w.rect.h : ℤ) : ℚ)|] = 3) :
    (Ray.test_collision walls r).facing = (r.facing.1, |r.facing.2|) := by
  simp only [Ray.test_collision, hw, hbottom]
  norm_num

/-- C8 witness: the amended bottom-edge law applied to the concrete pulse
and wall of the counterexample. -/
theorem bottom_edge_reflection_sign_witness :
    collidelist (Ray.get_rect rayC8) [wallC8] = some wallC8
  ∧ idxOfMin
      [|(vsub rayC8.pos (vdiv (vmuls rayC8.facing ((RAY_SPEED : ℕ) : ℚ)) 2)).1
          - (wallC8.rect.x : ℚ)|,
       |(vsub rayC8.pos (vdiv (vmuls rayC8.facing ((RAY_SPEED : ℕ) : ℚ)) 2)).1
          - ((wallC8.rect.x + wallC8.rect.w : ℤ) : ℚ)|,
       |(vsub rayC8.pos (vdiv (vmuls rayC8.facing ((RAY_SPEED : ℕ) : ℚ)) 2)).2
          - (wallC8.rect.y : ℚ)|,
       |(vsub rayC8.pos (vdiv (vmuls rayC8.facing ((RAY_SPEED : ℕ) : ℚ)) 2)).2
          - ((wallC8.rect.y + wallC8.rect.h : ℤ) : ℚ)|] = 3
  ∧ (Ray.test_collision [wallC8] rayC8).facing = (rayC8.facing.1, |rayC8.facing.2|) := by
  have h1 : collidelist (Ray.get_rect rayC8) [wallC8] = some wallC8 := by
    norm_num [collidelist, List.find?, rectsCollide, Ray.get_rect, rayC8, wallC8,
      RAY_RADIUS, pyround, Int.fract, round_eq]
  have h2 : idxOfMin
      [|(vsub rayC8.pos (vdiv (vmuls rayC8.facing ((RAY_SPEED : ℕ) : ℚ)) 2)).1
          - (wallC8.rect.x : ℚ)|,
       |(vsub rayC8.pos (vdiv (vmuls rayC8.facing ((RAY_SPEED : ℕ) : ℚ)) 2)).1
          - ((wallC8.rect.x + wallC8.rect.w : ℤ) : ℚ)|,
       |(vsub rayC8.pos (vdiv (vmuls rayC8.facing ((RAY_SPEED : ℕ) : ℚ)) 2)).2
          - (wallC8.rect.y : ℚ)|,
       |(vsub rayC8.pos (vdiv (vmuls rayC8.facing ((RAY_SPEED : ℕ) : ℚ)) 2)).2
          - ((wallC8.rect.y + wallC8.rect.h : ℤ) : ℚ)|] = 3 := by
    norm_num [rayC8, wallC8, RAY_SPEED, vsub, vdiv, vmuls, idxOfMin, List.min?,
      List.findIdx, List.findIdx.go, min_def, abs]
  exact ⟨h1, h2, bottom_edge_reflection_sign [wallC8] rayC8 wallC8 h1 h2⟩

theorem vnorm_nonneg (v : ℝ × ℝ) : 0 ≤ vnorm v := Real.sqrt_nonneg _

theorem vnorm_eq_zero_iff (v : ℝ × ℝ) : vnorm v = 0 ↔ v = 0 := by
  unfold vnorm
  constructor
  · intro h
    have hle : v.1 ^ 2 + v.2 ^ 2 ≤ 0 := Real.sqrt_eq_zero'.mp h
    have h1 : v.1 = 0 := by nlinarith [sq_nonneg v.1, sq_nonneg v.2]
    have h2 : v.2 = 0 := by nlinarith [sq_nonneg v.1, sq_nonneg v.2]
    exact Prod.ext h1 h2
  · intro h
    rw [h]
    norm_num

/-- C6: `normalize()` and `argument()` raise `ZeroDivisionError` exactly
when the vector is the zero vector; for every non-zero 2D vector,
`normalize` returns a vector and `argument` returns an angle in
`[0, 2π)`, which lies in `[π, 2π)` when the Y component is negative. -/
theorem normalize_argument_zero_division (v : ℝ × ℝ) :
    (Vector.normalizeE v = .error .zeroDivision ↔ v = 0)
  ∧ (Vector.argumentE v = .error .zeroDivision ↔ v = 0)
  ∧ (v ≠ 0 → ∃ u, Vector.normalizeE v = .ok u)
  ∧ (v ≠ 0 → ∃ theta, Vector.argumentE v = .ok theta
      ∧ 0 ≤ theta ∧ theta < 2 * Real.pi ∧ (v.2 < 0 → Real.pi ≤ theta)) := by
  have hiff := vnorm_eq_zero_iff v
  refine ⟨?_, ?_, ?_, ?_⟩
  · by_cases h : vnorm v = 0 <;> simp [Vector.normalizeE, h, ← hiff]
  · by_cases h : vnorm v = 0 <;> simp [Vector.argumentE, h, ← hiff]
  · intro hv
    have h : vnorm v ≠ 0 := fun h0 => hv (hiff.mp h0)
    exact ⟨(v.1 / vnorm v, v.2 / vnorm v), by simp [Vector.normalizeE, h]⟩
  · intro hv
    have h : vnorm v ≠ 0 := fun h0 => hv (hiff.mp h0)
    have hn : 0 < vnorm v := lt_of_le_of_ne (vnorm_nonneg v) (Ne.symm h)
    refine ⟨Vector.argument v, by simp [Vector.argumentE, h], ?_, ?_, ?_⟩
    · unfold Vector.argument
      split_ifs with hneg
      · have harc := Real.arccos_le_pi (v.1 / vnorm v)
        nlinarith [Real.pi_pos]
      · exact Real.arccos_nonneg _
    · unfold Vector.argument
      split_ifs with hneg
      · have hq : v.1 / vnorm v < 1 := by
          rw [div_lt_one hn]
          have hsq : vnorm v ^ 2 = v.1 ^ 2 + v.2 ^ 2 :=
            Real.sq_sqrt (by positivity)
          nlinarith [mul_pos (neg_pos.mpr hneg) (neg_pos.mpr hneg), vnorm_nonneg v]
        have harc : 0 < Real.arccos (v.1 / vnorm v) := Real.arccos_pos.mpr hq
        linarith
      · have harc := Real.arccos_le_pi (v.1 / vnorm v)
        nlinarith [Real.pi_pos]
    · intro hneg
      unfold Vector.argument
      rw [if_pos hneg]
      have harc := Real.arccos_le_pi (v.1 / vnorm v)
      linarith

/-- C6 witness: the non-zero vector `(0, -1)` — `argument` succeeds with
an angle in `[π, 2π)`. -/
theorem normalize_argument_zero_division_witness :
    ((0 : ℝ), (-1 : ℝ)) ≠ 0
  ∧ (∃ theta, Vector.argumentE ((0 : ℝ), (-1 : ℝ)) = .ok theta
      ∧ 0 ≤ theta ∧ theta < 2 * Real.pi
      ∧ (((0 : ℝ), (-1 : ℝ)).2 < 0 → Real.pi ≤ theta)) :=
  have hne : ((0 : ℝ), (-1 : ℝ)) ≠ 0 := by norm_num [Prod.ext_iff]
  ⟨hne, (normalize_argument_zero_division _).2.2.2 hne⟩

/-- C3: each tick, an auto-controlled agent's velocity is incremented by
`(20 * |aggregateEcho| + DEFAULT_SPEED) * facing`; when the aggregate echo
is non-zero (Python truthiness of either component) the angular velocity
is decremented by the angle from facing to the echo reduced to the
shortest turn (`2π` subtracted when it exceeds `π`); when the aggregate
echo is the zero vector, `π` is added instead.  Position and facing are
untouched by the steering step. -/
theorem steering_policy_update (b : Bat ℝ) (avg : ℝ × ℝ) :
    (steer b avg).vel = vadd b.vel (vmuls b.facing (20 * vnorm avg + (DEFAULT_SPEED : ℝ)))
  ∧ (steer b avg).pos = b.pos
  ∧ (steer b avg).facing = b.facing
  ∧ (avg ≠ 0 → (steer b avg).ang_vel = b.ang_vel - shortestTurnAngle b.facing avg)
  ∧ (avg = 0 → (steer b avg).ang_vel = b.ang_vel + Real.pi) := by
  have h0 : (avg = 0) ↔ (avg.1 = 0 ∧ avg.2 = 0) := by
    rw [Prod.ext_iff]
    simp
  refine ⟨?_, ?_, ?_, ?_, ?_⟩
  · by_cases hc : avg.1 ≠ 0 ∨ avg.2 ≠ 0 <;> simp [steer, hc]
  · by_cases hc : avg.1 ≠ 0 ∨ avg.2 ≠ 0 <;> simp [steer, hc]
  · by_cases hc : avg.1 ≠ 0 ∨ avg.2 ≠ 0 <;> simp [steer, hc]
  · intro hne
    have hc : avg.1 ≠ 0 ∨ avg.2 ≠ 0 := by
      by_contra hcon
      push_neg at hcon
      exact hne (h0.mpr hcon)
    simp only [steer, hc, if_true, shortestTurnAngle]
    split_ifs <;> ring
  · intro heq
    have hc : ¬ (avg.1 ≠ 0 ∨ avg.2 ≠ 0) := by
      rw [h0] at heq
      push_neg
      exact heq
    simp [steer, hc]

/-- C3 witness: the non-zero branch applied to a concrete aggregate echo
`(3, 4)`. -/
theorem steering_policy_update_witness :
    ((3 : ℝ), (4 : ℝ)) ≠ 0
  ∧ (steer batR ((3 : ℝ), (4 : ℝ))).ang_vel
      = batR.ang_vel - shortestTurnAngle batR.facing ((3 : ℝ), (4 : ℝ)) :=
  have hne : ((3 : ℝ), (4 : ℝ)) ≠ 0 := by norm_num [Prod.ext_iff]
  ⟨hne, (steering_policy_update batR _).2.2.2.1 hne⟩

/-- C10: a returning pulse — bounding box overlapping the agent's, with
`collided` and `exited_bat` both set — is removed from the scanned
collection by `test_rays` regardless of its facing; when the negated
facing is the zero vector no Echo is created, yet the pulse is removed all
the same (removal does not depend on the conversion succeeding). -/
theorem returning_pulse_removed_unconditionally (b : Bat ℝ) (rays : List (Ray ℝ)) (r : Ray ℝ)
    (hover : rectsCollide (Bat.get_rect b) (Ray.get_rect r) = true)
    (hc : r.collided = true) (he : r.exited_bat = true) :
    r ∉ (Bat.test_rays b rays).2
  ∧ (r.facing = 0 →
      (Bat.test_rays b [r]).1.beams = b.beams ∧ (Bat.test_rays b [r]).2 = []) := by
  constructor
  · intro hmem
    simp only [Bat.test_rays, List.mem_filterMap] at hmem
    obtain ⟨a, _, hpa⟩ := hmem
    unfold Bat.processRay at hpa
    by_cases hov : rectsCollide (Bat.get_rect b) (Ray.get_rect a) = true
    · rw [if_pos hov] at hpa
      by_cases hce : (a.collided && a.exited_bat) = true
      · rw [if_pos hce] at hpa
        simp at hpa
      · rw [if_neg hce] at hpa
        simp only [Option.some.injEq] at hpa
        rw [hpa] at hce
        exact hce (by simp [hc, he])
    · rw [if_neg hov] at hpa
      by_cases hex : a.exited_bat = false
      · rw [if_pos hex] at hpa
        simp only [Option.some.injEq] at hpa
        apply hov
        rw [show Ray.get_rect a = Ray.get_rect r by rw [← hpa]; rfl]
        exact hover
      · rw [if_neg hex] at hpa
        simp only [Option.some.injEq] at hpa
        rw [hpa] at hov
        exact hov hover
  · intro hzero
    constructor <;>
      simp [Bat.test_rays, Bat.processRay, hover, hc, he, hzero, vmuls]

/-- C10 witness: a zero-facing returning pulse sitting on the concrete bat
is removed and creates no beam. -/
theorem returning_pulse_removed_unconditionally_witness :
    rectsCollide (Bat.get_rect batR) (Ray.get_rect rayZeroFacing) = true
  ∧ rayZeroFacing.collided = true
  ∧ rayZeroFacing.exited_bat = true
  ∧ rayZeroFacing.facing = 0
  ∧ rayZeroFacing ∉ (Bat.test_rays batR [rayZeroFacing]).2
  ∧ (Bat.test_rays batR [rayZeroFacing]).1.beams = batR.beams
  ∧ (Bat.test_rays batR [rayZeroFacing]).2 = [] := by
  have hov : rectsCollide (Bat.get_rect batR) (Ray.get_rect rayZeroFacing) = true := by
    norm_num [rectsCollide, Bat.get_rect, Ray.get_rect, batR, rayZeroFacing,
      BAT_RADIUS, RAY_RADIUS, pyround, Int.fract, round_eq]
  have hz : rayZeroFacing.facing = 0 := rfl
  obtain ⟨h1, h2⟩ :=
    returning_pulse_removed_unconditionally batR [rayZeroFacing] rayZeroFacing hov rfl rfl
  obtain ⟨h3, h4⟩ := h2 hz
  exact ⟨hov, rfl, rfl, hz, h1, h3, h4⟩

theorem argument_unitX : Vector.argument ((1 : ℝ), (0 : ℝ)) = 0 := by
  unfold Vector.argument vnorm
  norm_num [Real.arccos_one]

/-- C2 (counterexample): the agent at `(100, 100)` facing heading 0 emits
32 pulses, but none of them has heading `+5π/8` (no emitted facing equals
the unit vector of angle `5π/8`), so the maximum pulse heading is not
`+5π/8 (mod 2π)` as claimed — the angles stop one step short, at
`75π/128 = 5π/8 − 5π/128`. -/
theorem emission_fan_max_heading_cex :
    (Bat.emit batR).length = 32
  ∧ (Real.cos (5 * Real.pi / 8), Real.sin (5 * Real.pi / 8))
      ∉ (Bat.emit batR).map Ray.facing := by
  constructor
  · simp [Bat.emit, RAYS_PER_EMIT]
  · intro hmem
    simp only [Bat.emit, List.map_map, List.mem_map, List.mem_range, Function.comp] at hmem
    obtain ⟨i, hi, heq⟩ := hmem
    rw [show Vector.argument batR.facing = 0 from argument_unitX] at heq
    simp only [Vector.rotate2D, mul_one, mul_zero, sub_zero, add_zero, Prod.mk.injEq] at heq
    obtain ⟨hcos, hsin⟩ := heq
    have h1 : Real.cos (emitAngle 0 i - 5 * Real.pi / 8) = 1 := by
      rw [Real.cos_sub, hcos, hsin]
      linear_combination Real.sin_sq_add_cos_sq (5 * Real.pi / 8)
    obtain ⟨n, hn⟩ := (Real.cos_eq_one_iff _).mp h1
    unfold emitAngle EMISSION_ANGLE RAYS_PER_EMIT at hn
    push_cast at hn
    have hpi := Real.pi_ne_zero
    have h2 : (256 * (n : ℝ)) * Real.pi = (5 * (i : ℝ) - 160) * Real.pi := by
      linear_combination 128 * hn
    have h3 : (256 : ℝ) * n = 5 * (i : ℝ) - 160 := mul_right_cancel₀ hpi h2
    have h4 : (256 : ℤ) * n = 5 * (i : ℤ) - 160 := by exact_mod_cast h3
    have hi32 : i < 32 := by simpa [RAYS_PER_EMIT] using hi
    omega

/-- C2 (amended): `emit` creates exactly `RAYS_PER_EMIT = 32` pulses, the
`i`-th with facing `(1,0)` rotated by
`arg − EMISSION_ANGLE/2 + EMISSION_ANGLE·i/32` about the facing's argument
`arg`; for heading 0 the emit angles attain their minimum `−5π/8` at
`i = 0` and their maximum `75π/128 = 5π/8 − 5π/128` at `i = 31`: the fan
covers only `31/32` of the configured spread and is not centred on the
heading. -/
theorem emission_fan_geometry (b : Bat ℝ) :
    (Bat.emit b).length = RAYS_PER_EMIT
  ∧ (∀ i, i < RAYS_PER_EMIT →
      (Bat.emit b)[i]? = some
        { pos := b.pos,
          facing := Vector.rotate2D (1, 0) (emitAngle (Vector.argument b.facing) i),
          collided := false, exited_bat := false,
          strength := (RAY_STRENGTH : ℝ), interest := 0, radius := RAY_RADIUS })
  ∧ emitAngle 0 0 = -(5 * Real.pi / 8)
  ∧ emitAngle 0 31 = 75 * Real.pi / 128
  ∧ (∀ i, i < RAYS_PER_EMIT →
      emitAngle 0 0 ≤ emitAngle 0 i ∧ emitAngle 0 i ≤ emitAngle 0 31) := by
  refine ⟨by simp [Bat.emit], ?_, ?_, ?_, ?_⟩
  · intro i hi
    simp [Bat.emit, List.getElem?_range hi]
  · unfold emitAngle EMISSION_ANGLE RAYS_PER_EMIT
    push_cast
    ring
  · unfold emitAngle EMISSION_ANGLE RAYS_PER_EMIT
    push_cast
    ring
  · intro i hi
    have hπ := Real.pi_pos
    have h31 : (i : ℝ) ≤ 31 := by
      have hi32 : i < 32 := by simpa [RAYS_PER_EMIT] using hi
      have : i ≤ 31 := by omega
      exact_mod_cast this
    have h0 : (0 : ℝ) ≤ (i : ℝ) := Nat.cast_nonneg i
    unfold emitAngle EMISSION_ANGLE RAYS_PER_EMIT
    push_cast
    constructor
    · nlinarith [mul_nonneg hπ.le h0]
    · nlinarith [mul_nonneg hπ.le (sub_nonneg.mpr h31)]

/-- C2 witness: the amended fan geometry evaluated at the boundary pulses
`i = 0` and `i = 31`. -/
theorem emission_fan_geometry_witness :
    (0 : ℕ) < RAYS_PER_EMIT
  ∧ (Bat.emit batR)[0]? = some
      { pos := batR.pos,
        facing := Vector.rotate2D (1, 0) (emitAngle (Vector.argument batR.facing) 0),
        collided := false, exited_bat := false,
        strength := (RAY_STRENGTH : ℝ), interest := 0, radius := RAY_RADIUS }
  ∧ (31 : ℕ) < RAYS_PER_EMIT
  ∧ (emitAngle 0 0 ≤ emitAngle 0 31 ∧ emitAngle 0 31 ≤ emitAngle 0 31) :=
  ⟨by norm_num [RAYS_PER_EMIT],
   (emission_fan_geometry batR).2.1 0 (by norm_num [RAYS_PER_EMIT]),
   by norm_num [RAYS_PER_EMIT],
   (emission_fan_geometry batR).2.2.2.2 31 (by norm_num [RAYS_PER_EMIT])⟩
